import Mathlib

/-!
Shallow embedding of the multimodal meme-classification notebook
(`M_Model_S_Analysis.ipynb`): the `MemeDataset` adapter, the
`MultimodalModel` fusion network, the training loop `train_model`, the
evaluation loop `evaluate_model`, and the train/validation split.

Real-valued tensors are modelled over `ℚ` (the properties verified are
shape, structural and order-theoretic, never floating-point-numeric);
external pretrained encoders, the tokenizer and the image processor are
modelled as function-valued fields, faithful to how the notebook consumes
them (only their outputs are used).
-/

/-- The five label tasks of the notebook, in the order the
`label_maps` / `classifier` dictionaries declare them. -/
inductive TaskKey where
  | sentiment
  | humor
  | sarcasm
  | offensive
  | motivational
deriving DecidableEq, Repr

/-- The dictionary iteration order of `label_maps` and `classifier`. -/
def tasks : List TaskKey :=
  [TaskKey.sentiment, TaskKey.humor, TaskKey.sarcasm, TaskKey.offensive, TaskKey.motivational]

/-- Embedding of `MemeDataset.label_maps`: the fixed per-task vocabulary lists. -/
def labelMaps : TaskKey → List String
  | TaskKey.sentiment => ["very_negative", "negative", "neutral", "positive", "very_positive"]
  | TaskKey.humor => ["not_funny", "funny", "very_funny", "hilarious"]
  | TaskKey.sarcasm => ["not_sarcastic", "general", "twisted_meaning", "very_twisted"]
  | TaskKey.offensive => ["not_offensive", "slight", "very_offensive", "hateful_offensive"]
  | TaskKey.motivational => ["not_motivational", "motivational"]

/-- Python `list.index`: the first index whose element equals `x`;
a `ValueError` (no index) when `x` is absent. -/
def pyIndex (l : List String) (x : String) : Option Nat :=
  match l with
  | [] => none
  | a :: rest => if a = x then some 0 else (pyIndex rest x).map (· + 1)

/-- One row of the labels table (`labels.csv` as read by pandas):
the columns `__getitem__` consumes. -/
structure Row where
  text_corrected : String
  image_name : String
  overall_sentiment : String
  humour : String
  sarcasm : String
  offensive : String
  motivational : String
deriving DecidableEq, Repr

/-- The label string a row carries for each task (the column
`__getitem__` reads for that task). -/
def rowLabel (r : Row) : TaskKey → String
  | TaskKey.sentiment => r.overall_sentiment
  | TaskKey.humor => r.humour
  | TaskKey.sarcasm => r.sarcasm
  | TaskKey.offensive => r.offensive
  | TaskKey.motivational => r.motivational

/-- The encoded labels of one sample (the `labels` dict of integer
class indices returned by `__getitem__`). -/
structure Labels where
  sentiment : Nat
  humor : Nat
  sarcasm : Nat
  offensive : Nat
  motivational : Nat
deriving DecidableEq, Repr

/-- Reading the `labels` dict at a task key. -/
def labelOf (ls : Labels) : TaskKey → Nat
  | TaskKey.sentiment => ls.sentiment
  | TaskKey.humor => ls.humor
  | TaskKey.sarcasm => ls.sarcasm
  | TaskKey.offensive => ls.offensive
  | TaskKey.motivational => ls.motivational

/-- Modelled from the spec: the pretrained `DistilBertTokenizer` is an
external deterministic map from a text to its token-id sequence; the
notebook only fixes the call's keyword arguments. `tokenizeFixed`
embeds the documented effect of `max_length=n, padding='max_length',
truncation=True`: truncate the token sequence to `n`, pad with the pad
id `0` up to `n`, and report an attention mask of `1` on real tokens
and `0` on padding. -/
def tokenizeFixed (baseTok : String → List Nat) (maxLen : Nat) (text : String) :
    List Nat × List Nat :=
  let toks := (baseTok text).take maxLen
  (toks ++ List.replicate (maxLen - toks.length) 0,
   List.replicate toks.length 1 ++ List.replicate (maxLen - toks.length) 0)

/-- One sample as returned by `MemeDataset.__getitem__`. -/
structure Item where
  inputIds : List Nat
  attnMask : List Nat
  pixelValues : List ℚ
  labels : Labels
deriving DecidableEq, Repr

/-- Embedding of `MemeDataset`: the labels table plus the (external) tokenizer and
image processor it holds. -/
structure MemeDataset where
  rows : List Row
  textMaxLength : Nat := 128
  baseTok : String → List Nat
  imgProc : String → List ℚ

/-- Embedding of `MemeDataset.__getitem__`: tokenize the text to a fixed length,
process the image, and encode the five labels. The first four labels
are `list.index` lookups in `label_maps` (a lookup error propagates as
`none`); the motivational label is the literal comparison
`1 if row['motivational'] == 'motivational' else 0`. -/
def getitem (ds : MemeDataset) (idx : Nat) : Option Item :=
  (ds.rows.get? idx).bind fun row =>
    let tk := tokenizeFixed ds.baseTok ds.textMaxLength row.text_corrected
    let pv := ds.imgProc row.image_name
    (pyIndex (labelMaps TaskKey.sentiment) row.overall_sentiment).bind fun s =>
      (pyIndex (labelMaps TaskKey.humor) row.humour).bind fun h =>
        (pyIndex (labelMaps TaskKey.sarcasm) row.sarcasm).bind fun sc =>
          (pyIndex (labelMaps TaskKey.offensive) row.offensive).bind fun o =>
            some { inputIds := tk.1, attnMask := tk.2, pixelValues := pv,
                   labels := { sentiment := s, humor := h, sarcasm := sc, offensive := o,
                               motivational := if row.motivational = "motivational" then 1 else 0 } }

/-- A tensor row (one sample's feature vector), over `ℚ`. -/
def Vec : Type := List ℚ

/-- A 2-D tensor: a list of rows. -/
def Mat : Type := List (List ℚ)

/-- Dot product of two vectors (zip-wise product, summed). -/
def dot (v w : List ℚ) : ℚ := (List.zipWith (· * ·) v w).sum

/-- An `nn.Linear` layer: a weight matrix (one row per output feature)
and a bias vector of the same length. -/
structure LinearLayer where
  weight : List (List ℚ)
  bias : List ℚ
  hbias : bias.length = weight.length

/-- Number of output features of a linear layer. -/
def LinearLayer.outDim (l : LinearLayer) : Nat := l.weight.length

/-- Applying a linear layer to an input vector: `W x + b`. -/
def LinearLayer.app (l : LinearLayer) (x : List ℚ) : List ℚ :=
  List.zipWith (fun row bi => dot row x + bi) l.weight l.bias

/-- Embedding of `nn.ReLU`, applied elementwise. -/
def relu (v : List ℚ) : List ℚ := v.map (fun x => max 0 x)

/-- Embedding of `nn.Dropout`, with its randomness made explicit: an elementwise
multiplicative mask (in training, `0` or `1/(1-p)` per unit; in eval
mode the constant-`1` mask, i.e. the identity). -/
def dropout (mask : Nat → ℚ) (v : List ℚ) : List ℚ :=
  v.mapIdx (fun i x => mask i * x)

/-- The eval-mode dropout mask (dropout inactive). -/
def evalMask : Nat → ℚ := fun _ => 1

/-- Output width of each classification head, as declared in
`MultimodalModel.classifier`: `nn.Linear(512, ·)`. -/
def headDim : TaskKey → Nat
  | TaskKey.sentiment => 5
  | TaskKey.humor => 4
  | TaskKey.sarcasm => 4
  | TaskKey.offensive => 4
  | TaskKey.motivational => 2

/-- Embedding of `MultimodalModel`: the two pretrained encoders (external modules
consumed through their `last_hidden_state` output, one hidden vector
per sequence position), the fusion projection `nn.Linear(768*2, 512)`,
and the five classification heads `nn.Linear(512, headDim t)`. -/
structure MultimodalModel where
  textModel : List Nat → List Nat → List (List ℚ)
  imageModel : List ℚ → List (List ℚ)
  fusion : LinearLayer
  hfusionOut : fusion.outDim = 512
  hfusionIn : ∀ r ∈ fusion.weight, r.length = 768 * 2
  heads : TaskKey → LinearLayer
  hheads : ∀ t, (heads t).outDim = headDim t
  hheadsIn : ∀ t, ∀ r ∈ (heads t).weight, r.length = 512

/-- The shared fused vector of one sample: first-token hidden state of
each encoder, concatenated, then `fusion` = linear + ReLU + dropout. -/
def fuseOne (m : MultimodalModel) (mask : Nat → ℚ) (it : Item) : List ℚ :=
  dropout mask (relu (m.fusion.app
    ((m.textModel it.inputIds it.attnMask).headI ++ (m.imageModel it.pixelValues).headI)))

/-- One task head's scores over a batch (one row of `headDim t` scores
per sample). -/
def headOut (m : MultimodalModel) (mask : Nat → ℚ) (batch : List Item) (t : TaskKey) :
    List (List ℚ) :=
  (batch.map (fuseOne m mask)).map (m.heads t).app

/-- Embedding of `MultimodalModel.forward`: the output dict
`{task: classifier[task](fused) for task in classifier}`, as an
association list in the `classifier` key order. -/
def forward (m : MultimodalModel) (mask : Nat → ℚ) (batch : List Item) :
    List (TaskKey × List (List ℚ)) :=
  tasks.map (fun t => (t, headOut m mask batch t))

/-- Spec-side restatement of the forward computation, written stage by
stage in the spec's words: each encoder's output reduced to the first
token's final hidden state, the two pooled vectors concatenated, one
shared linear + activation + dropout projection, and five independent
linear heads on the single shared fused vector, with no softmax. -/
def poolFirst (hiddenStates : List (List ℚ)) : List ℚ := hiddenStates.headI

/-- Spec-side shared projection: linear, then activation, then dropout. -/
def sharedProj (m : MultimodalModel) (mask : Nat → ℚ) (v : List ℚ) : List ℚ :=
  dropout mask (relu (m.fusion.app v))

/-- Spec-side staged forward pass (see `poolFirst`, `sharedProj`). -/
def forwardSpec (m : MultimodalModel) (mask : Nat → ℚ) (batch : List Item) :
    List (TaskKey × List (List ℚ)) :=
  tasks.map (fun t => (t,
    batch.map (fun it => (m.heads t).app (sharedProj m mask
      (poolFirst (m.textModel it.inputIds it.attnMask) ++
       poolFirst (m.imageModel it.pixelValues))))))

/-- Embedding of `torch.argmax(·, dim=1)` on one score row: index of the (first)
maximal entry. -/
def argmaxIdx (v : List ℚ) : Nat :=
  (v.enum.foldl (fun best p => if best.2 < p.2 then p else best) (0, v.headI)).1

/-- Embedding of `sklearn.metrics.accuracy_score` on a list of
(ground-truth, prediction) pairs: the fraction of exact matches. -/
def accScore (pairs : List (Nat × Nat)) : ℚ :=
  if pairs.length = 0 then 0
  else (pairs.countP (fun p => p.1 == p.2) : ℚ) / (pairs.length : ℚ)

/-- The label set sklearn scores over: every class value observed in
either the ground truth or the predictions. -/
def classesOf (pairs : List (Nat × Nat)) : Finset Nat :=
  (pairs.map Prod.fst ++ pairs.map Prod.snd).toFinset

/-- True positives of class `c`. -/
def tpOf (pairs : List (Nat × Nat)) (c : Nat) : Nat :=
  pairs.countP (fun p => p.1 == c && p.2 == c)

/-- False positives of class `c`. -/
def fpOf (pairs : List (Nat × Nat)) (c : Nat) : Nat :=
  pairs.countP (fun p => !(p.1 == c) && p.2 == c)

/-- False negatives of class `c`. -/
def fnOf (pairs : List (Nat × Nat)) (c : Nat) : Nat :=
  pairs.countP (fun p => p.1 == c && !(p.2 == c))

/-- Per-class F1 (`2·tp / (2·tp + fp + fn)`, `0` when the denominator
vanishes, as sklearn's zero-division default). -/
def f1Of (pairs : List (Nat × Nat)) (c : Nat) : ℚ :=
  let d : Nat := 2 * tpOf pairs c + fpOf pairs c + fnOf pairs c
  if d = 0 then 0 else (2 * tpOf pairs c : ℚ) / (d : ℚ)

/-- Embedding of `sklearn.metrics.f1_score` with `average="macro"`: unweighted mean of
per-class F1 over the observed label set. -/
def macroF1 (pairs : List (Nat × Nat)) : ℚ :=
  if (classesOf pairs).card = 0 then 0
  else (∑ c ∈ classesOf pairs, f1Of pairs c) / ((classesOf pairs).card : ℚ)

/-- A torch module as held by the notebook: its parameters (the
`MultimodalModel` weights) plus its train/eval mode flag (the only
thing `model.train()` / `model.eval()` mutate). -/
structure TorchModel where
  core : MultimodalModel
  training : Bool

/-- The (ground-truth, prediction) pairs one evaluation batch
contributes for one task: labels from the batch, predictions by
arg-max over the task head's scores. -/
def taskPairs (m : MultimodalModel) (t : TaskKey) (batch : List Item) : List (Nat × Nat) :=
  List.zip (batch.map (fun it => labelOf it.labels t))
           ((headOut m evalMask batch t).map argmaxIdx)

/-- Embedding of `evaluate_model`: switch to eval mode, accumulate predictions and
ground truth over the whole split (per task, batch after batch), then
compute accuracy and macro-F1 per task. Returns the metrics and the
module as left by the call (parameters untouched, mode flag cleared). -/
def evaluate_model (tm : TorchModel) (batches : List (List Item)) :
    List (TaskKey × ℚ × ℚ) × TorchModel :=
  (tasks.map (fun t =>
      let pairs := (batches.map (taskPairs tm.core t)).flatten
      (t, accScore pairs, macroF1 pairs)),
   { core := tm.core, training := false })

/-- The label tensor a batch carries for one task. -/
def batchLabels (batch : List Item) (t : TaskKey) : List Nat :=
  batch.map (fun it => labelOf it.labels t)

/-- One training step: forward pass, scalar loss
`sum(criterion[task](outputs[task], labels[task]) for task in outputs)`,
then backward + optimizer step, abstracted as the parameter-update
function `opt` (autodiff and AdamW are external library code). Returns
the updated parameters and the scalar loss that was backpropagated. -/
def trainStep (opt : MultimodalModel → List Item → MultimodalModel)
    (ce : List (List ℚ) → List Nat → ℚ) (mask : Nat → ℚ)
    (m : MultimodalModel) (b : List Item) : MultimodalModel × ℚ :=
  let outputs := forward m mask b
  (opt m b, (outputs.map (fun p => ce p.2 (batchLabels b p.1))).sum)

/-- One epoch: a full pass over the dataloader's batches, threading the
parameters and logging each step's loss. -/
def trainEpoch (opt : MultimodalModel → List Item → MultimodalModel)
    (ce : List (List ℚ) → List Nat → ℚ) (mask : Nat → ℚ)
    (st : MultimodalModel × List ℚ) (batches : List (List Item)) :
    MultimodalModel × List ℚ :=
  batches.foldl (fun acc b =>
    let r := trainStep opt ce mask acc.1 b
    (r.1, acc.2 ++ [r.2])) st

/-- Embedding of `train_model`: `epochs` full passes over the training dataloader.
Returns the final parameters and the per-step loss log. -/
def train_model (opt : MultimodalModel → List Item → MultimodalModel)
    (ce : List (List ℚ) → List Nat → ℚ) (mask : Nat → ℚ)
    (m0 : MultimodalModel) (batches : List (List Item)) (epochs : Nat) :
    MultimodalModel × List ℚ :=
  (List.range epochs).foldl (fun st _ => trainEpoch opt ce mask st batches) (m0, [])

/-- Modelled from the spec: `sklearn.model_selection.train_test_split`
is external library code; the spec fixes only that the split is a
seeded deterministic shuffle at a fixed ratio. A linear congruential
generator supplies the seeded pseudo-randomness. -/
def lcg (s : Nat) : Nat := (1103515245 * s + 12345) % 2 ^ 31

/-- Modelled from the spec: seeded Fisher-Yates-style shuffle — pick a
pseudo-random position, emit that element, recurse on the rest. -/
def shuffleGo {α : Type} [DecidableEq α] (s : Nat) (l : List α) : List α :=
  match l with
  | [] => []
  | x :: xs =>
    let y := (x :: xs).get ⟨s % (x :: xs).length, Nat.mod_lt _ (Nat.succ_pos _)⟩
    y :: shuffleGo (lcg s) ((x :: xs).erase y)
termination_by l.length
decreasing_by
  simp only [List.length_erase_of_mem (List.get_mem _ _ _), List.length_cons]
  omega

/-- Modelled from the spec: the test partition size for
`test_size=0.2`, the ceiling of a fifth of the table. -/
def nTestOf (n : Nat) : Nat := (n + 4) / 5

/-- Modelled from the spec:
`train_test_split(df, test_size=0.2, random_state=42)` — shuffle the
rows with the fixed seed `42`, put the first fifth (rounded up) in the
validation partition and the rest in the train partition. -/
def train_test_split {α : Type} [DecidableEq α] (df : List α) : List α × List α :=
  let shuffled := shuffleGo 42 df
  (shuffled.drop (nTestOf df.length), shuffled.take (nTestOf df.length))

/-- A concrete labels row whose five label strings are all valid. -/
def rowGood : Row :=
  { text_corrected := "hello world", image_name := "a.jpg",
    overall_sentiment := "neutral", humour := "funny", sarcasm := "general",
    offensive := "slight", motivational := "motivational" }

/-- A concrete row whose motivational label is outside the fixed
vocabulary while the four other labels are valid. -/
def rowBadMot : Row :=
  { text_corrected := "hello world", image_name := "a.jpg",
    overall_sentiment := "positive", humour := "hilarious", sarcasm := "not_sarcastic",
    offensive := "not_offensive", motivational := "banana" }

/-- A concrete row whose sentiment label is outside the fixed
vocabulary. -/
def rowBadSent : Row :=
  { text_corrected := "hello world", image_name := "a.jpg",
    overall_sentiment := "meh", humour := "funny", sarcasm := "general",
    offensive := "slight", motivational := "not_motivational" }

/-- A trivial concrete tokenizer (for concrete witnesses). -/
def tok0 : String → List Nat := fun _ => []

/-- A trivial concrete image processor (for concrete witnesses). -/
def img0 : String → List ℚ := fun _ => []

/-- A concrete one-row dataset around `rowGood`. -/
def dsGood : MemeDataset := { rows := [rowGood], baseTok := tok0, imgProc := img0 }

/-- A concrete one-row dataset around `rowBadMot`. -/
def dsBadMot : MemeDataset := { rows := [rowBadMot], baseTok := tok0, imgProc := img0 }

/-- A concrete one-row dataset around `rowBadSent`. -/
def dsBadSent : MemeDataset := { rows := [rowBadSent], baseTok := tok0, imgProc := img0 }

/-- The sample `getitem dsGood 0` returns. -/
def itemGood : Item :=
  { inputIds := List.replicate 128 0, attnMask := List.replicate 128 0,
    pixelValues := [],
    labels := { sentiment := 2, humor := 1, sarcasm := 1, offensive := 1, motivational := 1 } }

/-- An all-zero linear layer of the given output and input widths. -/
def linZero (outD inD : Nat) : LinearLayer :=
  { weight := List.replicate outD (List.replicate inD 0),
    bias := List.replicate outD 0,
    hbias := by rw [List.length_replicate, List.length_replicate] }

/-- A concrete `MultimodalModel` with zero weights and empty encoder
outputs. -/
def model0 : MultimodalModel :=
  { textModel := fun _ _ => [], imageModel := fun _ => [],
    fusion := linZero 512 (768 * 2),
    hfusionOut := by rw [show (linZero 512 (768 * 2)).outDim = 512 from List.length_replicate ..],
    hfusionIn := by
      intro r hr
      rw [List.eq_of_mem_replicate hr, List.length_replicate],
    heads := fun t => linZero (headDim t) 512,
    hheads := by intro t; exact List.length_replicate ..,
    hheadsIn := by
      intro t r hr
      rw [List.eq_of_mem_replicate hr, List.length_replicate] }

/-- A concrete `TorchModel` wrapper around `model0`. -/
def tm0 : TorchModel := { core := model0, training := true }

theorem pyIndex_eq_none_iff (l : List String) (x : String) :
    pyIndex l x = none ↔ x ∉ l := by
  induction l with
  | nil => simp [pyIndex]
  | cons a rest ih =>
    by_cases h : a = x
    · simp [pyIndex, h]
    · simp [pyIndex, h, ih, Ne.symm h]

theorem pyIndex_get? (l : List String) (x : String) :
    ∀ i, pyIndex l x = some i → l.get? i = some x := by
  induction l with
  | nil => intro i hi; simp [pyIndex] at hi
  | cons a rest ih =>
    intro i hi
    by_cases h : a = x
    · simp [pyIndex, h] at hi
      subst hi
      simp [h]
    · simp [pyIndex, h] at hi
      obtain ⟨j, hj, rfl⟩ := hi
      simpa using ih j hj

theorem pyIndex_lt_length (l : List String) (x : String) (i : Nat)
    (hi : pyIndex l x = some i) : i < l.length := by
  have := pyIndex_get? l x i hi
  exact (List.get?_eq_some.mp this).1

theorem tokenizeFixed_fst_length (bt : String → List Nat) (n : Nat) (text : String) :
    (tokenizeFixed bt n text).1.length = n := by
  simp [tokenizeFixed, List.length_take]

theorem tokenizeFixed_snd_length (bt : String → List Nat) (n : Nat) (text : String) :
    (tokenizeFixed bt n text).2.length = n := by
  simp [tokenizeFixed, List.length_take]

/-- C1 (counterexample): the claim fails at the motivational task. On a
concrete row whose motivational label `"banana"` is not in the fixed
vocabulary (all other labels valid), `__getitem__` does not fail: it
returns a sample, with motivational encoded as `0`. -/
theorem c1_counterexample :
    dsBadMot.rows.get? 0 = some rowBadMot ∧
    rowLabel rowBadMot TaskKey.motivational ∉ labelMaps TaskKey.motivational ∧
    (getitem dsBadMot 0).isSome = true ∧
    (getitem dsBadMot 0).map (fun it => labelOf it.labels TaskKey.motivational) = some 0 := by
  refine ⟨rfl, by decide, ?_, ?_⟩ <;> rfl

/-- C1 (amended): for each of the four lookup-encoded tasks (sentiment,
humor, sarcasm, offensive), a row whose label string for that task is
not in the task's fixed vocabulary list makes `__getitem__` fail with a
lookup error; the motivational task is excluded, since it is encoded by
a literal comparison that never fails. -/
theorem c1_lookup_error (ds : MemeDataset) (idx : Nat) (row : Row) (t : TaskKey)
    (hrow : ds.rows.get? idx = some row) (ht : t ≠ TaskKey.motivational)
    (hmem : rowLabel row t ∉ labelMaps t) : getitem ds idx = none := by
  rw [List.get?_eq_getElem?] at hrow
  cases t with
  | motivational => exact absurd rfl ht
  | sentiment =>
    have hn : pyIndex (labelMaps TaskKey.sentiment) row.overall_sentiment = none :=
      (pyIndex_eq_none_iff _ _).mpr hmem
    simp [getitem, hrow, hn]
  | humor =>
    have hn : pyIndex (labelMaps TaskKey.humor) row.humour = none :=
      (pyIndex_eq_none_iff _ _).mpr hmem
    simp [getitem, hrow, hn]
  | sarcasm =>
    have hn : pyIndex (labelMaps TaskKey.sarcasm) row.sarcasm = none :=
      (pyIndex_eq_none_iff _ _).mpr hmem
    simp [getitem, hrow, hn]
  | offensive =>
    have hn : pyIndex (labelMaps TaskKey.offensive) row.offensive = none :=
      (pyIndex_eq_none_iff _ _).mpr hmem
    simp [getitem, hrow, hn]

/-- C1 (witness): the amended theorem at a concrete dataset whose only
row carries the out-of-vocabulary sentiment label `"meh"`. -/
theorem c1_lookup_error_witness :
    rowLabel rowBadSent TaskKey.sentiment ∉ labelMaps TaskKey.sentiment ∧
    getitem dsBadSent 0 = none :=
  ⟨by decide, c1_lookup_error dsBadSent 0 rowBadSent TaskKey.sentiment rfl (by decide) (by decide)⟩

/-- C2 (counterexample): encode-then-decode is not the identity on
every successfully returned sample. On a concrete row whose
motivational label is `"banana"`, `__getitem__` succeeds, stores class
index `0`, and decoding `0` through the vocabulary yields
`"not_motivational"`, not the original string. -/
theorem c2_counterexample :
    dsBadMot.rows.get? 0 = some rowBadMot ∧
    (getitem dsBadMot 0).map
        (fun it => (labelMaps TaskKey.motivational).get? (labelOf it.labels TaskKey.motivational)) =
      some (some "not_motivational") ∧
    some (some "not_motivational") ≠
      some (some (rowLabel rowBadMot TaskKey.motivational)) := by
  refine ⟨rfl, rfl, by decide⟩

/-- C2 (amended): on every sample `__getitem__` returns, decoding the
stored class index through the fixed vocabulary list recovers the
original label string for the four lookup-encoded tasks; for the
motivational task it does so whenever the row's motivational label is
itself in the fixed vocabulary (for any other string the code silently
stores class `0`). -/
theorem c2_roundtrip (ds : MemeDataset) (idx : Nat) (row : Row) (it : Item)
    (hrow : ds.rows.get? idx = some row) (hit : getitem ds idx = some it) :
    (∀ t, t ≠ TaskKey.motivational →
      (labelMaps t).get? (labelOf it.labels t) = some (rowLabel row t)) ∧
    (rowLabel row TaskKey.motivational ∈ labelMaps TaskKey.motivational →
      (labelMaps TaskKey.motivational).get? (labelOf it.labels TaskKey.motivational) =
        some (rowLabel row TaskKey.motivational)) := by
  rw [List.get?_eq_getElem?] at hrow
  simp only [getitem, List.get?_eq_getElem?, hrow, Option.some_bind, Option.bind_eq_some,
    Option.some.injEq] at hit
  obtain ⟨s, hs, h, hh, sc, hsc, o, ho, hit⟩ := hit
  subst hit
  constructor
  · intro t ht
    cases t with
    | motivational => exact absurd rfl ht
    | sentiment => exact pyIndex_get? _ _ _ hs
    | humor => exact pyIndex_get? _ _ _ hh
    | sarcasm => exact pyIndex_get? _ _ _ hsc
    | offensive => exact pyIndex_get? _ _ _ ho
  · intro hm
    simp only [labelMaps, List.mem_cons, List.mem_singleton] at hm
    simp only [rowLabel] at hm ⊢
    rcases hm with hm | hm | hm
    · rw [hm]; rfl
    · rw [hm]; rfl
    · simp at hm

/-- C2 (witness): the amended theorem at a concrete one-row dataset
with all five labels valid; both parts decode back to the original
strings. -/
theorem c2_roundtrip_witness :
    getitem dsGood 0 = some itemGood ∧
    (labelMaps TaskKey.humor).get? (labelOf itemGood.labels TaskKey.humor) =
      some (rowLabel rowGood TaskKey.humor) ∧
    (labelMaps TaskKey.motivational).get? (labelOf itemGood.labels TaskKey.motivational) =
      some (rowLabel rowGood TaskKey.motivational) :=
  ⟨rfl,
   (c2_roundtrip dsGood 0 rowGood itemGood rfl rfl).1 TaskKey.humor (by decide),
   (c2_roundtrip dsGood 0 rowGood itemGood rfl rfl).2 (by decide)⟩

/-- C10: every sample `__getitem__` returns carries encoded class
indices inside the valid range of the corresponding classification
head: below 5 for sentiment, below 4 for humor, sarcasm and offensive,
below 2 for motivational — and every model's head output width is
exactly that range. -/
theorem c10_label_range (ds : MemeDataset) (idx : Nat) (it : Item)
    (hit : getitem ds idx = some it) :
    (∀ t, labelOf it.labels t < headDim t) ∧
    (∀ (m : MultimodalModel) (t : TaskKey), (m.heads t).outDim = headDim t) := by
  simp only [getitem, Option.bind_eq_some, Option.some.injEq] at hit
  obtain ⟨row, hrow, s, hs, h, hh, sc, hsc, o, ho, hit⟩ := hit
  subst hit
  refine ⟨?_, fun m t => m.hheads t⟩
  intro t
  cases t with
  | sentiment => simpa [headDim, labelOf] using pyIndex_lt_length _ _ _ hs
  | humor => simpa [headDim, labelOf] using pyIndex_lt_length _ _ _ hh
  | sarcasm => simpa [headDim, labelOf] using pyIndex_lt_length _ _ _ hsc
  | offensive => simpa [headDim, labelOf] using pyIndex_lt_length _ _ _ ho
  | motivational =>
    simp only [labelOf, headDim]
    split <;> decide

/-- C10 (witness): the range theorem at the concrete dataset `dsGood`
and the concrete model `model0`. -/
theorem c10_label_range_witness :
    getitem dsGood 0 = some itemGood ∧
    labelOf itemGood.labels TaskKey.sentiment < headDim TaskKey.sentiment ∧
    (model0.heads TaskKey.sentiment).outDim = headDim TaskKey.sentiment :=
  ⟨rfl, (c10_label_range dsGood 0 itemGood rfl).1 TaskKey.sentiment,
   (c10_label_range dsGood 0 itemGood rfl).2 model0 TaskKey.sentiment⟩

/-- C4: for every sample `__getitem__` returns, the `input_ids` and
`attention_mask` sequences have length exactly `text_max_length`
(shorter texts padded, longer truncated), and tokenization is
deterministic: two rows of the same dataset with the same text receive
identical token and mask sequences. -/
theorem c4_fixed_length :
    (∀ (ds : MemeDataset) (idx : Nat) (it : Item), getitem ds idx = some it →
      it.inputIds.length = ds.textMaxLength ∧ it.attnMask.length = ds.textMaxLength) ∧
    (∀ (ds : MemeDataset) (i j : Nat) (ri rj : Row) (iti itj : Item),
      ds.rows.get? i = some ri → ds.rows.get? j = some rj →
      ri.text_corrected = rj.text_corrected →
      getitem ds i = some iti → getitem ds j = some itj →
      iti.inputIds = itj.inputIds ∧ iti.attnMask = itj.attnMask) := by
  constructor
  · intro ds idx it hit
    simp only [getitem, Option.bind_eq_some, Option.some.injEq] at hit
    obtain ⟨row, hrow, s, hs, h, hh, sc, hsc, o, ho, hit⟩ := hit
    subst hit
    exact ⟨tokenizeFixed_fst_length .., tokenizeFixed_snd_length ..⟩
  · intro ds i j ri rj iti itj hri hrj htext hiti hitj
    simp only [getitem, Option.bind_eq_some, Option.some.injEq] at hiti hitj
    obtain ⟨row, hrow, s, hs, h, hh, sc, hsc, o, ho, hiti⟩ := hiti
    obtain ⟨row', hrow', s', hs', h', hh', sc', hsc', o', ho', hitj⟩ := hitj
    rw [hri] at hrow
    rw [hrj] at hrow'
    obtain rfl := Option.some.inj hrow
    obtain rfl := Option.some.inj hrow'
    subst hiti
    subst hitj
    simp [htext]

/-- C4 (witness): the length and determinism statements at the
concrete one-row dataset `dsGood` (default `text_max_length` 128). -/
theorem c4_fixed_length_witness :
    getitem dsGood 0 = some itemGood ∧
    itemGood.inputIds.length = dsGood.textMaxLength ∧
    itemGood.attnMask.length = dsGood.textMaxLength ∧
    itemGood.inputIds = itemGood.inputIds :=
  ⟨rfl, (c4_fixed_length.1 dsGood 0 itemGood rfl).1, (c4_fixed_length.1 dsGood 0 itemGood rfl).2,
   (c4_fixed_length.2 dsGood 0 0 rowGood rowGood itemGood itemGood rfl rfl rfl rfl rfl).1⟩

theorem LinearLayer.length_app (l : LinearLayer) (x : List ℚ) :
    (l.app x).length = l.outDim := by
  simp [LinearLayer.app, LinearLayer.outDim, l.hbias]

/-- C3: for every batch of size `N`, `forward` returns exactly the five
task keys, in order, and each task's score tensor has `N` rows of width
given by that task's head: 5 for sentiment, 4 for humor, 4 for sarcasm,
4 for offensive, 2 for motivational. -/
theorem c3_output_shapes (m : MultimodalModel) (mask : Nat → ℚ) (batch : List Item) :
    (forward m mask batch).map (fun p => (p.1, p.2.length, p.2.map List.length)) =
      tasks.map (fun t => (t, batch.length, List.replicate batch.length (headDim t))) ∧
    headDim TaskKey.sentiment = 5 ∧ headDim TaskKey.humor = 4 ∧
    headDim TaskKey.sarcasm = 4 ∧ headDim TaskKey.offensive = 4 ∧
    headDim TaskKey.motivational = 2 := by
  refine ⟨?_, rfl, rfl, rfl, rfl, rfl⟩
  simp only [forward, List.map_map]
  refine List.map_congr_left fun t _ => ?_
  simp only [Function.comp_apply, headOut, List.map_map, List.length_map]
  refine congrArg (Prod.mk t) (congrArg (Prod.mk batch.length) ?_)
  have hconst : (List.length ∘ (m.heads t).app ∘ fuseOne m mask) = fun _ => headDim t :=
    funext fun it => by simp [Function.comp, LinearLayer.length_app, m.hheads]
  rw [hconst, List.map_const']

/-- C8: `forward` computes exactly the staged pipeline the spec
describes — pool each encoder output to its first token's final hidden
state, concatenate text and image vectors, apply the one shared
linear + ReLU + dropout projection, then the five independent linear
heads on the single shared fused vector, with no softmax
(`forwardSpec` is that staged description). -/
theorem c8_forward_staged (m : MultimodalModel) (mask : Nat → ℚ) (batch : List Item) :
    forward m mask batch = forwardSpec m mask batch := by
  simp [forward, forwardSpec, headOut, fuseOne, sharedProj, poolFirst, List.map_map,
    Function.comp]

/-- C9: `evaluate_model` leaves the model parameters unchanged — the
module it hands back holds exactly the weights it was given; the only
state it writes is the train/eval mode flag. -/
theorem c9_eval_preserves_params (tm : TorchModel) (batches : List (List Item)) :
    (evaluate_model tm batches).2.core = tm.core ∧
    (evaluate_model tm batches).2.training = false :=
  ⟨rfl, rfl⟩

theorem trainEpoch_log_length (opt : MultimodalModel → List Item → MultimodalModel)
    (ce : List (List ℚ) → List Nat → ℚ) (mask : Nat → ℚ) :
    ∀ (batches : List (List Item)) (st : MultimodalModel × List ℚ),
      (trainEpoch opt ce mask st batches).2.length = st.2.length + batches.length := by
  intro batches
  induction batches with
  | nil => intro st; simp [trainEpoch]
  | cons b bs ih =>
    intro st
    simp only [trainEpoch, List.foldl_cons] at *
    rw [ih]
    simp
    omega

theorem train_model_aux_log_length (opt : MultimodalModel → List Item → MultimodalModel)
    (ce : List (List ℚ) → List Nat → ℚ) (mask : Nat → ℚ) (batches : List (List Item)) :
    ∀ (epochs : Nat) (st : MultimodalModel × List ℚ),
      ((List.range epochs).foldl (fun st _ => trainEpoch opt ce mask st batches) st).2.length =
        st.2.length + epochs * batches.length := by
  intro epochs
  induction epochs with
  | zero => intro st; simp
  | succ n ih =>
    intro st
    rw [List.range_succ, List.foldl_append]
    simp only [List.foldl_cons, List.foldl_nil]
    rw [trainEpoch_log_length, ih]
    ring

/-- C5: in every training step the backpropagated scalar loss is the
sum over the five tasks of the per-task criterion applied to that
task's head output and that task's encoded batch labels; and
`train_model` performs exactly `epochs` full passes over the training
dataloader (one step per batch per epoch). -/
theorem c5_loss_and_epochs (opt : MultimodalModel → List Item → MultimodalModel)
    (ce : List (List ℚ) → List Nat → ℚ) (mask : Nat → ℚ)
    (m0 : MultimodalModel) (batches : List (List Item)) (epochs : Nat) :
    (train_model opt ce mask m0 batches epochs).2.length = epochs * batches.length ∧
    ∀ (m : MultimodalModel) (b : List Item),
      (trainStep opt ce mask m b).2 =
        (tasks.map (fun t => ce (headOut m mask b t) (batchLabels b t))).sum := by
  constructor
  · rw [train_model, train_model_aux_log_length]
    simp
  · intro m b
    simp only [trainStep, forward, List.map_map]
    rfl

theorem perm_flatten {α : Type} : ∀ {l₁ l₂ : List (List α)},
    l₁.Perm l₂ → l₁.flatten.Perm l₂.flatten := by
  intro l₁ l₂ h
  induction h with
  | nil => rfl
  | cons x _ ih => simpa using ih.append_left x
  | swap x y l =>
    simp only [List.flatten_cons]
    rw [← List.append_assoc, ← List.append_assoc]
    exact (List.perm_append_comm).append_right l.flatten
  | trans _ _ ih1 ih2 => exact ih1.trans ih2

theorem accScore_perm {p1 p2 : List (Nat × Nat)} (h : p1.Perm p2) :
    accScore p1 = accScore p2 := by
  simp [accScore, h.length_eq, h.countP_eq]

theorem classesOf_perm {p1 p2 : List (Nat × Nat)} (h : p1.Perm p2) :
    classesOf p1 = classesOf p2 :=
  List.toFinset_eq_of_perm _ _ ((h.map Prod.fst).append (h.map Prod.snd))

theorem tpOf_perm {p1 p2 : List (Nat × Nat)} (h : p1.Perm p2) (c : Nat) :
    tpOf p1 c = tpOf p2 c := h.countP_eq _

theorem fpOf_perm {p1 p2 : List (Nat × Nat)} (h : p1.Perm p2) (c : Nat) :
    fpOf p1 c = fpOf p2 c := h.countP_eq _

theorem fnOf_perm {p1 p2 : List (Nat × Nat)} (h : p1.Perm p2) (c : Nat) :
    fnOf p1 c = fnOf p2 c := h.countP_eq _

theorem f1Of_perm {p1 p2 : List (Nat × Nat)} (h : p1.Perm p2) (c : Nat) :
    f1Of p1 c = f1Of p2 c := by
  simp only [f1Of, tpOf_perm h, fpOf_perm h, fnOf_perm h]

theorem macroF1_perm {p1 p2 : List (Nat × Nat)} (h : p1.Perm p2) :
    macroF1 p1 = macroF1 p2 := by
  simp only [macroF1, classesOf_perm h]
  rw [Finset.sum_congr rfl fun c _ => f1Of_perm h c]

/-- C6: the per-task accuracy and macro-F1 computed by
`evaluate_model` are invariant under any permutation of the order in
which the evaluation batches are traversed: two traversal orders of the
same split yield identical metric values. -/
theorem c6_metrics_order_invariant (tm : TorchModel) (b1 b2 : List (List Item))
    (h : b1.Perm b2) : (evaluate_model tm b1).1 = (evaluate_model tm b2).1 := by
  simp only [evaluate_model]
  refine List.map_congr_left fun t _ => ?_
  have hp : ((b1.map (taskPairs tm.core t)).flatten).Perm
      ((b2.map (taskPairs tm.core t)).flatten) := perm_flatten (h.map _)
  rw [accScore_perm hp, macroF1_perm hp]

/-- C6 (witness): the invariance theorem at two concrete traversal
orders of a two-batch split, swapped. -/
theorem c6_metrics_order_invariant_witness :
    ([[itemGood], []] : List (List Item)).Perm [[], [itemGood]] ∧
    (evaluate_model tm0 [[itemGood], []]).1 = (evaluate_model tm0 [[], [itemGood]]).1 :=
  ⟨List.Perm.swap _ _ _,
   c6_metrics_order_invariant tm0 [[itemGood], []] [[], [itemGood]] (List.Perm.swap _ _ _)⟩

theorem shuffleGo_perm_aux {α : Type} [DecidableEq α] :
    ∀ (n : Nat) (s : Nat) (l : List α), l.length ≤ n → (shuffleGo s l).Perm l := by
  intro n
  induction n with
  | zero =>
    intro s l hl
    rw [List.length_eq_zero.mp (Nat.le_zero.mp hl)]
    simp [shuffleGo]
  | succ n ih =>
    intro s l hl
    match l with
    | [] => simp [shuffleGo]
    | x :: xs =>
      rw [shuffleGo]
      have hy : (x :: xs).get ⟨s % (x :: xs).length, Nat.mod_lt _ (Nat.succ_pos _)⟩ ∈ x :: xs :=
        List.get_mem _ _ _
      have hlen : ((x :: xs).erase
          ((x :: xs).get ⟨s % (x :: xs).length, Nat.mod_lt _ (Nat.succ_pos _)⟩)).length ≤ n := by
        rw [List.length_erase_of_mem hy]
        simp only [List.length_cons] at hl ⊢
        omega
      exact ((ih (lcg s) _ hlen).cons _).trans (List.perm_cons_erase hy).symm

theorem shuffleGo_perm {α : Type} [DecidableEq α] (s : Nat) (l : List α) :
    (shuffleGo s l).Perm l :=
  shuffleGo_perm_aux l.length s l le_rfl

/-- C7: the seeded fixed-ratio split is reproducible (a deterministic
function of the table alone), and its two partitions together are a
permutation of the full table — every row lands in exactly one of them
— with the partitions disjoint whenever the table has no duplicate
rows. -/
theorem c7_split_partition {α : Type} [DecidableEq α] (l : List α) :
    ((train_test_split l).2 ++ (train_test_split l).1).Perm l ∧
    (l.Nodup → (train_test_split l).1.Disjoint (train_test_split l).2) ∧
    (∀ l' : List α, l = l' → train_test_split l = train_test_split l') := by
  have htd : (train_test_split l).2 ++ (train_test_split l).1 = shuffleGo 42 l := by
    simp [train_test_split, List.take_append_drop]
  refine ⟨?_, ?_, ?_⟩
  · rw [htd]
    exact shuffleGo_perm 42 l
  · intro hnd
    have hsh : (shuffleGo 42 l).Nodup := ((shuffleGo_perm 42 l).nodup_iff).mpr hnd
    rw [← htd] at hsh
    have := (List.nodup_append.mp hsh).2.2
    exact fun a ha hb => this hb ha
  · intro l' hl'
    rw [hl']

/-- C7 (witness): the split theorem at a concrete six-element table:
the partitions are disjoint and together a permutation of the table. -/
theorem c7_split_partition_witness :
    ([0, 1, 2, 3, 4, 5] : List Nat).Nodup ∧
    ((train_test_split [0, 1, 2, 3, 4, 5]).2 ++
      (train_test_split [0, 1, 2, 3, 4, 5]).1).Perm [0, 1, 2, 3, 4, 5] ∧
    (train_test_split ([0, 1, 2, 3, 4, 5] : List Nat)).1.Disjoint
      (train_test_split [0, 1, 2, 3, 4, 5]).2 :=
  ⟨by decide, (c7_split_partition [0, 1, 2, 3, 4, 5]).1,
   (c7_split_partition [0, 1, 2, 3, 4, 5]).2.1 (by decide)⟩
